import Mathlib

/-!
Verification of the EDTA-Audit tool (`edta_audit.py`).

This file gives a shallow embedding of the core of the auditor:

* the `TEanno.sum` report parser (`parse_teanno_sum_repeat_classes`),
* the metric extractors (`get_key`, `sum_by_prefix`, `pick_total`,
  the inline LTR-known block of `classify_one`),
* the tri-level rule engine (`tri_level`, `classify_plant`,
  `classify_animal`, `classify_fungi`),
* the completeness check (`tech_check`) and the per-sample pipeline
  (`classify_one`).

Modelling conventions:

* Python floats are modelled as `ℚ`; a float variable that can be `NaN`
  is modelled as `Option ℚ`, with `none` standing for `NaN` (the source
  uses `x != x` checks, i.e. `NaN`, for absence, and `to_opt` converts
  `NaN` to `None`).  All percentages produced by the parser come from the
  regex `^(\d+(?:\.\d+)?)%?$`, hence are finite and nonnegative; `ℚ` has
  no `NaN`/infinity, which is justified by that invariant.
* A Python dict is modelled as an association list with insert-or-replace
  semantics (`tableInsert`), matching dict update order.
* Filesystem facts consumed by `tech_check`/`classify_one` (file
  non-emptiness, directory existence, the text of the summary file, and a
  possible I/O exception while reading it) are supplied by an abstract
  `FS` record; `locate_outputs` is abstracted as the `SamplePaths` input
  that it produces and `tech_check` consumes.
* The strings joined with "; " into the `tags` / `missing` fields of a
  `Record` are modelled as the underlying `List String` (the join is
  injective exactly when no element embeds a semicolon, which is one of
  the audited guarantees).
-/

namespace EDTA

/-- Entry of the repeat-class table: base pairs masked (`none` models the
`NaN` stored when the bp column failed to parse) and percentage masked. -/
structure Entry where
  bp : Option ℚ
  pct : ℚ
  deriving DecidableEq, Repr

/-- A Python dict `str -> {bp, pct}` modelled as an association list. -/
abbrev Table := List (String × Entry)

/-- Dict assignment `out[key] = e`: replace the entry if the key is
already bound (keeping its position, as CPython does), else append. -/
def tableInsert (t : Table) (k : String) (e : Entry) : Table :=
  if t.any (fun kv => kv.1 == k) then
    t.map (fun kv => if kv.1 == k then (k, e) else kv)
  else
    t ++ [(k, e)]

/-- Dict lookup `te.get(key)`. -/
def tableFind? (t : Table) (k : String) : Option Entry :=
  (t.find? (fun kv => kv.1 == k)).map (fun kv => kv.2)

/-- Value of a list of decimal digit characters. -/
def digitsToNat (ds : List Char) : ℕ :=
  ds.foldl (fun n c => 10 * n + (c.toNat - '0'.toNat)) 0

/-- Uppercasing `str.upper()` on the ASCII report data, computed on the
character list so that it reduces in the kernel. -/
def toUpperStr (s : String) : String := (s.data.map Char.toUpper).asString

/-- Lowercasing `str.lower()`, likewise character-based. -/
def toLowerStr (s : String) : String := (s.data.map Char.toLower).asString

/-- Python `str.startswith(pre)`, computed on the character lists. -/
def startsWithStr (pre s : String) : Bool := pre.data.isPrefixOf s.data

/-- Python `str.strip()` on the ASCII report lines: drop whitespace from
both ends. -/
def pstrip (s : String) : String :=
  ((s.data.dropWhile Char.isWhitespace).reverse.dropWhile Char.isWhitespace).reverse.asString

/-- The maximal non-whitespace runs of a string, in order: the tokens of
`line.split()` after discarding empties.  `cur` accumulates the current
token reversed. -/
def wsTokensGo (cur : List Char) : List Char → List String
  | [] => if cur = [] then [] else [cur.reverse.asString]
  | c :: cs =>
      if c.isWhitespace then
        if cur = [] then wsTokensGo [] cs
        else cur.reverse.asString :: wsTokensGo [] cs
      else wsTokensGo (c :: cur) cs

/-- Whitespace tokenization of a line. -/
def wsTokens (s : String) : List String := wsTokensGo [] s.data

/-- Python `int(x.replace(",", ""))` wrapped in `try` (`safe_int`):
commas are removed, surrounding whitespace is tolerated, then an
optionally signed run of digits is parsed; anything else yields `None`. -/
def safe_int (x : String) : Option Int :=
  let y := pstrip ((x.data.filter (fun c => c ≠ ',')).asString)
  match y.data with
  | '-' :: ds =>
      if ds ≠ [] ∧ ds.all Char.isDigit then some (-(digitsToNat ds : Int)) else none
  | '+' :: ds =>
      if ds ≠ [] ∧ ds.all Char.isDigit then some (digitsToNat ds : Int) else none
  | ds =>
      if ds ≠ [] ∧ ds.all Char.isDigit then some (digitsToNat ds : Int) else none

/-- The `%masked` column parser: `re.match(r"^(\d+(?:\.\d+)?)%?$", pct_s)`
followed by `safe_float` on the captured group.  Returns the value of
`digits` or `digits.digits`, with an optional trailing `%`. -/
def parsePct (s : String) : Option ℚ :=
  let cs := if s.data.getLast? = some '%' then s.data.dropLast else s.data
  let ds := cs.takeWhile Char.isDigit
  let rest := cs.dropWhile Char.isDigit
  if ds = [] then none
  else if rest = [] then some (digitsToNat ds : ℚ)
  else if rest.head? = some '.' then
    let fs := rest.tail.takeWhile Char.isDigit
    if fs = [] then none
    else if rest.tail.dropWhile Char.isDigit = [] then
      some ((digitsToNat ds : ℚ) + (digitsToNat fs : ℚ) / (10 : ℚ) ^ fs.length)
    else none
  else none

/-- Tokenization by `re.split(r"\s{2,}", s)`: split on maximal runs of
two or more whitespace characters; a single whitespace character stays
inside its token.  `cur` is the token being built, `pend` the pending
run of whitespace not yet classified. -/
def splitColsGo (cur pend : String) : List Char → List String
  | [] => if pend.length ≥ 2 then [cur, ""] else [cur ++ pend]
  | c :: cs =>
      if c.isWhitespace then splitColsGo cur (pend.push c) cs
      else if pend.length ≥ 2 then cur :: splitColsGo (String.singleton c) "" cs
      else splitColsGo ((cur ++ pend).push c) "" cs

/-- Column splitting `_SPLIT_COLS.split(s)` with `_SPLIT_COLS = \s{2,}`. -/
def splitCols (s : String) : List String :=
  splitColsGo "" "" s.data

/-- Header detection `re.search(r"^\s*Class\s+Count\s+bpMasked\s+%masked\s*$", line)`:
the whitespace-separated tokens of the line are exactly those four words. -/
def isHeader (line : String) : Bool :=
  wsTokens line == ["Class", "Count", "bpMasked", "%masked"]

/-- Separator-line test `set(s) <= set("-=") and len(s) >= 5`. -/
def isSepLine (s : String) : Bool :=
  s.data.all (fun c => c = '-' ∨ c = '=') && s.length ≥ 5

/-- Class-name normalization `norm_class`: strip and uppercase (the
source's `NONTIR` special case is the identity and is kept verbatim). -/
def norm_class (s : String) : String :=
  let s := toUpperStr (pstrip s)
  if s = "NONTIR" then "NONTIR" else s

/-- What the parser's loop body does with one line once `in_table` holds. -/
inductive RowAction where
  /-- `line.strip().startswith("Repeat Stats")`: break out of the loop. -/
  | halt
  /-- Blank line, separator line, short row, or unparsable `%masked`. -/
  | skip
  /-- Class-heading row (`--`/`--`/`--`): set `current_class`. -/
  | heading (name : String)
  /-- A `Total` data row: store under `TOTAL`, reset `current_class`. -/
  | storeTotal (e : Entry)
  /-- A `Total interspersed` data row: store under `TOTAL_INTERSPERSED`. -/
  | storeTotalInter (e : Entry)
  /-- Any other data row; `isFam` records whether the raw line begins
  with a space or tab. -/
  | store (isFam : Bool) (name : String) (e : Entry)
  deriving DecidableEq, Repr

/-- One in-table iteration of the loop of `parse_teanno_sum_repeat_classes`
(lines 102–143 of the source), as a pure classification of the line. -/
def rowAction (line : String) : RowAction :=
  if startsWithStr "Repeat Stats" (pstrip line) then .halt
  else
    let s := pstrip line
    if s = "" then .skip
    else if isSepLine s then .skip
    else
      match splitCols s with
      | name :: count_s :: bp_s :: pct_s :: _ =>
          if count_s = "--" ∧ bp_s = "--" ∧ pct_s = "--" then
            .heading (norm_class name)
          else
            match parsePct pct_s with
            | none => .skip
            | some pct =>
                let e : Entry := ⟨(safe_int bp_s).map (fun i => (i : ℚ)), pct⟩
                if toLowerStr name = "total" then .storeTotal e
                else if toLowerStr name = "total interspersed" then .storeTotalInter e
                else .store (startsWithStr " " line ∨ startsWithStr "\t" line) name e
      | _ => .skip

/-- Mutable state of the parsing loop. -/
structure PState where
  inTable : Bool
  currentClass : Option String
  out : Table
  deriving Repr

/-- The key chosen for an ordinary data row (source lines 137–141):
`"{current_class}/{name.strip()}"` when the raw line is indented and a
class is active, else `name.strip().upper()`. -/
def storeKey (currentClass : Option String) (isFam : Bool) (n : String) : String :=
  match currentClass with
  | some c => if isFam then c ++ "/" ++ (pstrip n) else toUpperStr (pstrip n)
  | none => toUpperStr (pstrip n)

/-- One iteration of the scanning loop of
`parse_teanno_sum_repeat_classes`: `none` models `break` (the
`Repeat Stats` terminator), `some st2` the state after the line.  Before
the header line is found every line is ignored; afterwards each line is
interpreted by `rowAction`. -/
def parseStep (st : PState) (line : String) : Option PState :=
  if st.inTable = false then
    if isHeader line then some { st with inTable := true, currentClass := none }
    else some st
  else
    match rowAction line with
    | .halt => none
    | .skip => some st
    | .heading n => some { st with currentClass := some n }
    | .storeTotal e =>
        some { st with currentClass := none, out := tableInsert st.out "TOTAL" e }
    | .storeTotalInter e =>
        some { st with out := tableInsert st.out "TOTAL_INTERSPERSED" e }
    | .store isFam n e =>
        some { st with out := tableInsert st.out (storeKey st.currentClass isFam n) e }

/-- The scanning loop: fold `parseStep` over the lines, stopping early
when it signals `break`. -/
def parseLines (st : PState) : List String → Table
  | [] => st.out
  | line :: rest =>
      match parseStep st line with
      | none => st.out
      | some st2 => parseLines st2 rest

/-- The report parser `parse_teanno_sum_repeat_classes`, over the list of
lines of the summary file (each line stripped of its trailing newline,
as `raw.rstrip("\n")` does). -/
def parse_teanno_sum_repeat_classes (lines : List String) : Table :=
  parseLines ⟨false, none, []⟩ lines

/-- `get_key(te, key)`: `(pct, bp, present)`, with `NaN`s (here `none`)
when the key is missing. -/
def get_key (te : Table) (key : String) : Option ℚ × Option ℚ × Bool :=
  match tableFind? te key with
  | none => (none, none, false)
  | some v => (some v.pct, v.bp, true)

/-- `sum_by_prefix(te, prefix)`: sum of `pct` (and, independently, of the
non-`NaN` `bp` values) over all keys starting with the prefix.  The
source accumulates in a loop; this computes the same sums over the
matched sublist.  `(NaN, NaN, False)` when no key matches; `bp` is `NaN`
when no matched entry had a numeric bp. -/
def sum_by_prefix (te : Table) (pre : String) : Option ℚ × Option ℚ × Bool :=
  let matched := te.filter (fun kv => startsWithStr pre kv.1)
  if matched.isEmpty then (none, none, false)
  else
    let pct := (matched.map (fun kv => kv.2.pct)).sum
    let bps := matched.filterMap (fun kv => kv.2.bp)
    (some pct, if bps.isEmpty then none else some bps.sum, true)

/-- `pick_total(te)`: prefer `TOTAL`, fall back to `TOTAL_INTERSPERSED`,
else report source label `MISSING` with both values absent. -/
def pick_total (te : Table) : Option ℚ × Option ℚ × String × Bool :=
  let t := get_key te "TOTAL"
  if t.2.2 then (t.1, t.2.1, "TOTAL", true)
  else
    let ti := get_key te "TOTAL_INTERSPERSED"
    if ti.2.2 then (ti.1, ti.2.1, "TOTAL_INTERSPERSED", true)
    else (none, none, "MISSING", false)

/-- The LTR-known block inlined in `classify_one` (source lines 579–598):
`LTR/Copia` plus `LTR/Gypsy` where present; `(NaN, NaN)` when neither is
present; the bp sum degrades to `NaN` when no present component has a
numeric bp. -/
def ltr_known_sum (te : Table) : Option ℚ × Option ℚ :=
  let c := get_key te "LTR/Copia"
  let g := get_key te "LTR/Gypsy"
  if c.2.2 || g.2.2 then
    let pct : ℚ :=
      (match c.1 with | some v => v | none => 0) +
      (match g.1 with | some v => v | none => 0)
    let bps : List ℚ :=
      (match c.2.1 with | some b => [b] | none => []) ++
      (match g.2.1 with | some b => [b] | none => [])
    (some pct, if bps.isEmpty then none else some bps.sum)
  else (none, none)

/-- Plant-profile thresholds (`PlantThresholds`, source defaults). -/
structure PlantThresholds where
  total_pass : ℚ
  total_suspect : ℚ
  ltr_pass : ℚ
  ltr_suspect : ℚ
  tir_pass : ℚ
  tir_suspect : ℚ
  heli_warn_low : ℚ
  heli_warn_mid : ℚ
  ltr_known_hint_low : ℚ
  ltr_unknown_pct_hint : ℚ
  ltr_unknown_ratio_hint : ℚ
  deriving Repr

/-- The source's default `PlantThresholds()`. -/
def defaultPlantThresholds : PlantThresholds :=
  ⟨20, 10, 5, 1, 2, 0.5, 0.1, 0.5, 1, 10, 0.6⟩

/-- Animal-profile thresholds (`AnimalThresholds`). -/
structure AnimalThresholds where
  total_pass : ℚ
  total_suspect : ℚ
  min_ltr : ℚ
  min_tir : ℚ
  min_nonltr : ℚ
  deriving Repr

/-- The source's default `AnimalThresholds()`. -/
def defaultAnimalThresholds : AnimalThresholds := ⟨10, 3, 0.1, 0.1, 0.2⟩

/-- Fungi-profile thresholds (`FungiThresholds`). -/
structure FungiThresholds where
  total_pass : ℚ
  total_suspect : ℚ
  min_ltr : ℚ
  min_tir : ℚ
  deriving Repr

/-- The source's default `FungiThresholds()`. -/
def defaultFungiThresholds : FungiThresholds := ⟨5, 0.5, 0.1, 0.1⟩

/-- The shared tri-level primitive `tri_level(val, pass_cut, suspect_cut)`. -/
def tri_level (val : Option ℚ) (pass_cut suspect_cut : ℚ) : String :=
  match val with
  | none => "FAIL"
  | some v =>
      if v ≥ pass_cut then "PASS"
      else if v ≥ suspect_cut then "SUSPECT"
      else "FAIL"

/-- `classify_plant`: returns `(verdict, notes, tags)`.  The source
appends tags to one list in this exact order; each `tags.append` site is
rendered as one sublist below, concatenated in source order. -/
def classify_plant (total_te ltr_total tir helitron line_pct sine_pct
    ltr_known ltr_unknown : Option ℚ) (thr : PlantThresholds) :
    String × List String × List String :=
  let notes : List String := []
  let st_total := tri_level total_te thr.total_pass thr.total_suspect
  let st_ltr := tri_level ltr_total thr.ltr_pass thr.ltr_suspect
  let st_tir := tri_level tir thr.tir_pass thr.tir_suspect
  let tagsTotal :=
    if st_total = "FAIL" then ["HARD_FAIL_TOTAL_TE"]
    else if st_total = "SUSPECT" then ["HARD_SUSPECT_TOTAL_TE"] else []
  let tagsLtr :=
    if st_ltr = "FAIL" then ["HARD_FAIL_LTR_TOTAL"]
    else if st_ltr = "SUSPECT" then ["HARD_SUSPECT_LTR_TOTAL"] else []
  let tagsTir :=
    if st_tir = "FAIL" then ["HARD_FAIL_TIR"]
    else if st_tir = "SUSPECT" then ["HARD_SUSPECT_TIR"] else []
  let tagsHeli :=
    match helitron with
    | none => ["WARN_HELITRON_NOT_REPORTED"]
    | some h =>
        if h < thr.heli_warn_low then ["WARN_LOW_HELITRON"]
        else if h < thr.heli_warn_mid then ["WARN_LOW_HELITRON"] else []
  let tagsLine :=
    match line_pct with
    | none => ["WARN_LINE_NOT_REPORTED"]
    | some v => if v = 0 then ["WARN_LINE_ZERO"] else []
  let tagsSine :=
    match sine_pct with
    | none => ["WARN_SINE_NOT_REPORTED"]
    | some v => if v = 0 then ["WARN_SINE_ZERO"] else []
  let tagsKnown :=
    match ltr_known with
    | none => ["WARN_LTR_KNOWN_NOT_REPORTED"]
    | some v => if v < thr.ltr_known_hint_low then ["HINT_LOW_LTR_KNOWN"] else []
  let tagsUnknown :=
    match ltr_unknown, ltr_total with
    | some u, some t =>
        if 0 < t then
          if u ≥ thr.ltr_unknown_pct_hint ∨ u / t ≥ thr.ltr_unknown_ratio_hint then
            ["HINT_HIGH_LTR_UNKNOWN"]
          else []
        else []
    | _, _ => []
  let tags := tagsTotal ++ tagsLtr ++ tagsTir ++ tagsHeli ++ tagsLine ++
              tagsSine ++ tagsKnown ++ tagsUnknown
  if st_total = "FAIL" ∨ st_ltr = "FAIL" ∨ st_tir = "FAIL" then ("FAIL", notes, tags)
  else if st_total = "SUSPECT" ∨ st_ltr = "SUSPECT" ∨ st_tir = "SUSPECT" then
    ("SUSPECT", notes, tags)
  else ("PASS", notes, tags)

/-- `classify_animal`: returns `(verdict, notes, tags)`; the verdict is
the total-TE tri-level status. -/
def classify_animal (total_te ltr_total tir line_pct sine_pct : Option ℚ)
    (thr : AnimalThresholds) : String × List String × List String :=
  let notes : List String := []
  let st_total := tri_level total_te thr.total_pass thr.total_suspect
  let tagsTotal :=
    if st_total = "FAIL" then ["HARD_FAIL_TOTAL_TE"]
    else if st_total = "SUSPECT" then ["HARD_SUSPECT_TOTAL_TE"] else []
  let tagsLtr :=
    match ltr_total with
    | none => ["WARN_LOW_LTR"]
    | some v => if v < thr.min_ltr then ["WARN_LOW_LTR"] else []
  let tagsTir :=
    match tir with
    | none => ["WARN_LOW_TIR"]
    | some v => if v < thr.min_tir then ["WARN_LOW_TIR"] else []
  let acc : ℚ × Bool := (0, false)
  let acc := match line_pct with | some v => (acc.1 + v, true) | none => acc
  let acc := match sine_pct with | some v => (acc.1 + v, true) | none => acc
  let tagsNonltr :=
    if acc.2 = false ∨ acc.1 < thr.min_nonltr then ["WARN_LOW_NONLTR"] else []
  (st_total, notes, tagsTotal ++ tagsLtr ++ tagsTir ++ tagsNonltr)

/-- `classify_fungi`: returns `(verdict, notes, tags)`; the verdict is
the total-TE tri-level status. -/
def classify_fungi (total_te ltr_total tir helitron line_pct sine_pct : Option ℚ)
    (thr : FungiThresholds) : String × List String × List String :=
  let notes : List String := []
  let st_total := tri_level total_te thr.total_pass thr.total_suspect
  let tagsTotal :=
    if st_total = "FAIL" then ["HARD_FAIL_TOTAL_TE"]
    else if st_total = "SUSPECT" then ["HARD_SUSPECT_TOTAL_TE"] else []
  let tagsLtr :=
    match ltr_total with
    | none => ["WARN_LOW_LTR"]
    | some v => if v < thr.min_ltr then ["WARN_LOW_LTR"] else []
  let tagsTir :=
    match tir with
    | none => ["WARN_LOW_TIR"]
    | some v => if v < thr.min_tir then ["WARN_LOW_TIR"] else []
  let tagsHeli := match helitron with | none => ["WARN_HELITRON_NOT_REPORTED"] | some _ => []
  let tagsLine := match line_pct with | none => ["WARN_LINE_NOT_REPORTED"] | some _ => []
  let tagsSine := match sine_pct with | none => ["WARN_SINE_NOT_REPORTED"] | some _ => []
  (st_total, notes, tagsTotal ++ tagsLtr ++ tagsTir ++ tagsHeli ++ tagsLine ++ tagsSine)

/-- `TechConfig`: which artifacts are required for a technical PASS. -/
structure TechConfig where
  require_teanno_sum : Bool
  require_teanno_gff3 : Bool
  require_telib_fa : Bool
  require_anno_dir : Bool
  deriving DecidableEq, Repr

/-- The source's default `TechConfig()` (all four artifacts required). -/
def defaultTechConfig : TechConfig := ⟨true, true, true, true⟩

/-- The dict returned by `locate_outputs`: candidate paths for the four
artifacts (empty string when no candidate could be located), plus the
sample directory.  `locate_outputs` itself is directory scanning and is
abstracted as this input. -/
structure SamplePaths where
  sample_dir : String
  teanno_sum : String
  teanno_gff3 : String
  telib_fa : String
  anno_dir : String
  deriving DecidableEq, Repr

/-- Abstract filesystem facts consumed by the pipeline:
`nonemptyFile p` models `is_nonempty_file(p)`, `isDir p` models
`os.path.isdir(p)`, `fileLines p` the text lines of the file at `p`, and
`readErr p` a possible I/O exception (with its message) raised while
opening or reading `p` — the only way `parse_teanno_sum_repeat_classes`
can raise, since decoding errors are replaced, not raised. -/
structure FS where
  nonemptyFile : String → Bool
  isDir : String → Bool
  fileLines : String → List String
  readErr : String → Option String

/-- `tech_check(paths, cfg)`: collect the missing required artifacts (a
path is missing when it is empty — Python falsiness — or names no
non-empty file / no directory), and FAIL iff any is missing. -/
def tech_check (fs : FS) (paths : SamplePaths) (cfg : TechConfig) :
    String × List String :=
  let missingSum : List String :=
    if cfg.require_teanno_sum ∧
        (paths.teanno_sum = "" ∨ fs.nonemptyFile paths.teanno_sum = false) then
      ["TEanno.sum"]
    else []
  let missingGff : List String :=
    if cfg.require_teanno_gff3 ∧
        (paths.teanno_gff3 = "" ∨ fs.nonemptyFile paths.teanno_gff3 = false) then
      ["TEanno.gff3"]
    else []
  let missingLib : List String :=
    if cfg.require_telib_fa ∧
        (paths.telib_fa = "" ∨ fs.nonemptyFile paths.telib_fa = false) then
      ["TElib.fa"]
    else []
  let missingAnno : List String :=
    if cfg.require_anno_dir ∧
        (paths.anno_dir = "" ∨ fs.isDir paths.anno_dir = false) then
      ["EDTA.anno/"]
    else []
  let missing := missingSum ++ missingGff ++ missingLib ++ missingAnno
  if missing ≠ [] then ("FAIL", missing) else ("PASS", [])

/-- `os.path.basename` on an absolute path: the component after the last
separator. -/
def basename (p : String) : String :=
  (p.data.reverse.takeWhile (fun c => c ≠ '/')).reverse.asString

/-- `extract_genome_id`: the prefix matching `^(GC[AF]_\d+\.\d+)`, or the
whole sample id when there is no match. -/
def extract_genome_id (sample_id : String) : String :=
  match sample_id.data with
  | 'G' :: 'C' :: c :: '_' :: rest =>
      if c = 'A' ∨ c = 'F' then
        let ds := rest.takeWhile Char.isDigit
        let rest2 := rest.dropWhile Char.isDigit
        if ds ≠ [] then
          match rest2 with
          | '.' :: rest3 =>
              let ds2 := rest3.takeWhile Char.isDigit
              if ds2 ≠ [] then
                (['G', 'C', c, '_'] ++ ds ++ ['.'] ++ ds2).asString
              else sample_id
          | _ => sample_id
        else sample_id
      else sample_id
  | _ => sample_id

/-- The per-sample `Record`.  Float fields that can be `NaN` are
`Option ℚ` (`none` = `NaN`); the `tags` and `missing` fields hold the
lists that the source joins with `"; "` at construction. -/
structure Record where
  profile : String
  genome_id : String
  sample_id : String
  overall_status : String
  tech_status : String
  bio_status : String
  total_te_pct : Option ℚ
  total_te_bp : Option ℚ
  total_te_source : String
  ltr_total_pct : Option ℚ
  ltr_total_bp : Option ℚ
  ltr_known_pct : Option ℚ
  ltr_known_bp : Option ℚ
  ltr_unknown_pct : Option ℚ
  ltr_unknown_bp : Option ℚ
  tir_pct : Option ℚ
  tir_bp : Option ℚ
  helitron_pct : Option ℚ
  helitron_bp : Option ℚ
  line_present : ℕ
  line_pct : Option ℚ
  line_bp : Option ℚ
  sine_present : ℕ
  sine_pct : Option ℚ
  sine_bp : Option ℚ
  notes : String
  tags : List String
  missing : List String
  teanno_sum : String
  sample_dir : String
  deriving DecidableEq, Repr

/-- `classify_one`: tech check, then (on tech PASS) parse the summary
file, extract the metrics and classify under the selected profile.
`abspath` is not modelled (paths are taken as given). -/
def classify_one (fs : FS) (paths : SamplePaths) (profile : String)
    (plant_thr : PlantThresholds) (animal_thr : AnimalThresholds)
    (fungi_thr : FungiThresholds) (tech_cfg : TechConfig) : Record :=
  let sample_dir := paths.sample_dir
  let sample_id := basename sample_dir
  let genome_id := extract_genome_id sample_id
  let tcr := tech_check fs paths tech_cfg
  let tech_status := tcr.1
  let missing_list := tcr.2
  if tech_status = "FAIL" then
    { profile := profile, genome_id := genome_id, sample_id := sample_id,
      overall_status := "FAIL", tech_status := "FAIL", bio_status := "NA",
      total_te_pct := none, total_te_bp := none, total_te_source := "NA",
      ltr_total_pct := none, ltr_total_bp := none,
      ltr_known_pct := none, ltr_known_bp := none,
      ltr_unknown_pct := none, ltr_unknown_bp := none,
      tir_pct := none, tir_bp := none,
      helitron_pct := none, helitron_bp := none,
      line_present := 0, line_pct := none, line_bp := none,
      sine_present := 0, sine_pct := none, sine_bp := none,
      notes := "TECH_FAIL: incomplete EDTA output",
      tags := missing_list.map (fun m => "TECH_MISSING_" ++ m),
      missing := missing_list,
      teanno_sum := if paths.teanno_sum = "" then "NA" else paths.teanno_sum,
      sample_dir := sample_dir }
  else
    let teanno_sum_path := paths.teanno_sum
    match fs.readErr teanno_sum_path with
    | some e =>
        { profile := profile, genome_id := genome_id, sample_id := sample_id,
          overall_status := "FAIL", tech_status := "FAIL", bio_status := "NA",
          total_te_pct := none, total_te_bp := none, total_te_source := "NA",
          ltr_total_pct := none, ltr_total_bp := none,
          ltr_known_pct := none, ltr_known_bp := none,
          ltr_unknown_pct := none, ltr_unknown_bp := none,
          tir_pct := none, tir_bp := none,
          helitron_pct := none, helitron_bp := none,
          line_present := 0, line_pct := none, line_bp := none,
          sine_present := 0, sine_pct := none, sine_bp := none,
          notes := "TECH_FAIL: TEanno.sum parse error: " ++ e,
          tags := ["TECH_PARSE_ERROR"],
          missing := ["TEanno.sum(parse_error)"],
          teanno_sum := teanno_sum_path,
          sample_dir := sample_dir }
    | none =>
        let te := parse_teanno_sum_repeat_classes (fs.fileLines teanno_sum_path)
        let pt := pick_total te
        let total_pct := pt.1
        let total_bp := pt.2.1
        let total_source := pt.2.2.1
        let tags0 : List String := ["INFO_TOTAL_SOURCE_" ++ total_source]
        let ltrS := sum_by_prefix te "LTR/"
        let kn := ltr_known_sum te
        let unk0 := get_key te "LTR/unknown"
        let unk1 := if unk0.2.2 then unk0 else get_key te "LTR/Unknown"
        let unk : Option ℚ × Option ℚ := if unk1.2.2 then (unk1.1, unk1.2.1) else (none, none)
        let tirS := sum_by_prefix te "TIR/"
        let hel0 := get_key te "NONTIR/helitron"
        let hel1 := if hel0.2.2 then hel0 else get_key te "NONTIR/Helitron"
        let hel : Option ℚ × Option ℚ := if hel1.2.2 then (hel1.1, hel1.2.1) else (none, none)
        let lineS := sum_by_prefix te "LINE/"
        let sineS := sum_by_prefix te "SINE/"
        let bio :=
          if profile = "plant" then
            classify_plant total_pct ltrS.1 tirS.1 hel.1 lineS.1 sineS.1
              kn.1 unk.1 plant_thr
          else if profile = "animal" then
            classify_animal total_pct ltrS.1 tirS.1 lineS.1 sineS.1 animal_thr
          else
            classify_fungi total_pct ltrS.1 tirS.1 hel.1 lineS.1 sineS.1 fungi_thr
        let bio_status := bio.1
        let tags := tags0 ++ bio.2.2
        { profile := profile, genome_id := genome_id, sample_id := sample_id,
          overall_status := bio_status, tech_status := "PASS", bio_status := bio_status,
          total_te_pct := total_pct, total_te_bp := total_bp,
          total_te_source := total_source,
          ltr_total_pct := ltrS.1, ltr_total_bp := ltrS.2.1,
          ltr_known_pct := kn.1, ltr_known_bp := kn.2,
          ltr_unknown_pct := unk.1, ltr_unknown_bp := unk.2,
          tir_pct := tirS.1, tir_bp := tirS.2.1,
          helitron_pct := hel.1, helitron_bp := hel.2,
          line_present := if lineS.2.2 then 1 else 0,
          line_pct := lineS.1, line_bp := lineS.2.1,
          sine_present := if sineS.2.2 then 1 else 0,
          sine_pct := sineS.1, sine_bp := sineS.2.1,
          notes := "",
          tags := tags.filter (fun t => t ≠ ""),
          missing := [],
          teanno_sum := teanno_sum_path,
          sample_dir := sample_dir }

/-! ### Generic helper lemmas -/

/-- Membership in an `if` between two lists splits on the condition. -/
theorem mem_ite_list {c : Prop} [Decidable c] {t : String} {l₁ l₂ : List String} :
    t ∈ (if c then l₁ else l₂) ↔ (c ∧ t ∈ l₁) ∨ (¬ c ∧ t ∈ l₂) := by
  split_ifs <;> simp_all

/-- Second-second projection of the three-way verdict tuple. -/
theorem ite3_snd_snd {c₁ c₂ : Prop} [Decidable c₁] [Decidable c₂]
    {a b d : String} {n t : List String} :
    ((if c₁ then (a, n, t) else if c₂ then (b, n, t) else (d, n, t)) :
      String × List String × List String).2.2 = t := by
  split_ifs <;> rfl

/-- First projection of the three-way verdict tuple. -/
theorem ite3_fst {c₁ c₂ : Prop} [Decidable c₁] [Decidable c₂]
    {a b d : String} {n t : List String} :
    ((if c₁ then (a, n, t) else if c₂ then (b, n, t) else (d, n, t)) :
      String × List String × List String).1 =
      if c₁ then a else if c₂ then b else d := by
  split_ifs <;> rfl

/-! ### C2: the tri-level primitive -/

/-- Modelled from the spec: `triLevel(value, passCut, suspectCut)` returns
FAIL if value is absent; PASS if value ≥ passCut; SUSPECT if
suspectCut ≤ value < passCut; else FAIL. -/
def triLevel_spec (val : Option ℚ) (pass_cut suspect_cut : ℚ) : String :=
  match val with
  | none => "FAIL"
  | some v =>
      if v ≥ pass_cut then "PASS"
      else if suspect_cut ≤ v ∧ v < pass_cut then "SUSPECT"
      else "FAIL"

/-- C2: for every optional value and every pair of cutoffs, `tri_level`
returns FAIL on an absent value, PASS when the value is at least the
pass cutoff, SUSPECT when it lies in `[suspectCut, passCut)`, and FAIL
otherwise — i.e. it coincides with the spec's `triLevel`; in particular
`tri_level none p s = FAIL` for all `p`, `s`. -/
theorem C2_tri_level_matches_spec :
    (∀ (v : Option ℚ) (p s : ℚ), tri_level v p s = triLevel_spec v p s) ∧
    (∀ p s : ℚ, tri_level (none : Option ℚ) p s = "FAIL") := by
  constructor
  · intro v p s
    cases v with
    | none => rfl
    | some x =>
        simp only [tri_level, triLevel_spec]
        split_ifs with h1 h2 h3 h4 <;> try rfl
        · exact absurd ⟨h2, not_le.mp h1⟩ h3
        · exact absurd h4.1 h2
  · intro p s
    rfl

/-! ### C3: the plant verdict is the worst of the three hard statuses -/

/-- Modelled from the spec: the worst of two statuses under the ordering
FAIL > SUSPECT > PASS. -/
def worst (a b : String) : String :=
  if a = "FAIL" ∨ b = "FAIL" then "FAIL"
  else if a = "SUSPECT" ∨ b = "SUSPECT" then "SUSPECT"
  else "PASS"

/-- The verdict component of `classify_plant` as a fold of `worst`. -/
theorem classify_plant_fst (total_te ltr_total tir helitron line_pct sine_pct
    ltr_known ltr_unknown : Option ℚ) (thr : PlantThresholds) :
    (classify_plant total_te ltr_total tir helitron line_pct sine_pct
        ltr_known ltr_unknown thr).1 =
      worst (worst (tri_level total_te thr.total_pass thr.total_suspect)
                   (tri_level ltr_total thr.ltr_pass thr.ltr_suspect))
            (tri_level tir thr.tir_pass thr.tir_suspect) := by
  simp only [classify_plant, ite3_fst, worst]
  split_ifs <;> simp_all

/-- C3: for every combination of inputs and plant thresholds, the verdict
of `classify_plant` equals the worst (FAIL > SUSPECT > PASS) of the three
tri-level statuses of total-TE%, LTR-total% and TIR%, and is independent
of the helitron, LINE, SINE, LTR-known and LTR-unknown inputs. -/
theorem C3_plant_verdict_worst_of_three (total_te ltr_total tir helitron
    line_pct sine_pct ltr_known ltr_unknown : Option ℚ) (thr : PlantThresholds) :
    ((classify_plant total_te ltr_total tir helitron line_pct sine_pct
        ltr_known ltr_unknown thr).1 =
      worst (worst (tri_level total_te thr.total_pass thr.total_suspect)
                   (tri_level ltr_total thr.ltr_pass thr.ltr_suspect))
            (tri_level tir thr.tir_pass thr.tir_suspect)) ∧
    (∀ helitron' line_pct' sine_pct' ltr_known' ltr_unknown' : Option ℚ,
      (classify_plant total_te ltr_total tir helitron' line_pct' sine_pct'
          ltr_known' ltr_unknown' thr).1 =
        (classify_plant total_te ltr_total tir helitron line_pct sine_pct
          ltr_known ltr_unknown thr).1) := by
  refine ⟨classify_plant_fst _ _ _ _ _ _ _ _ _, ?_⟩
  intro h' l' s' k' u'
  rw [classify_plant_fst, classify_plant_fst]

/-! ### C8: the animal non-LTR warning and verdict -/

/-- C8: `classify_animal` emits `WARN_LOW_NONLTR` exactly when both LINE%
and SINE% are absent, or their sum (absent components contributing 0) is
below `min_nonltr`; and its verdict is exactly the tri-level status of
total-TE% alone. -/
theorem C8_animal_nonltr_warning_and_verdict (total_te ltr_total tir
    line_pct sine_pct : Option ℚ) (thr : AnimalThresholds) :
    ("WARN_LOW_NONLTR" ∈ (classify_animal total_te ltr_total tir
        line_pct sine_pct thr).2.2 ↔
      ((line_pct = none ∧ sine_pct = none) ∨
        line_pct.getD 0 + sine_pct.getD 0 < thr.min_nonltr)) ∧
    (classify_animal total_te ltr_total tir line_pct sine_pct thr).1 =
      tri_level total_te thr.total_pass thr.total_suspect := by
  constructor
  · cases ltr_total <;> cases tir <;> cases line_pct <;> cases sine_pct <;>
      simp [classify_animal, List.mem_append, mem_ite_list]
  · rfl

/-! ### C7: the HINT_HIGH_LTR_UNKNOWN tag -/

/-- C7 counterexample: the claim states that the absolute-percentage
condition (`ltr_unknown ≥ ltr_unknown_pct_hint`) triggers the tag
independently of LTR-total; but the source guards the entire block by
`ltr_total is not None and ltr_total > 0`, so with `ltr_unknown = 50`
(well above the default hint cutoff 10) and `ltr_total` absent the tag
is not emitted. -/
theorem C7_counterexample_hint_needs_ltr_total :
    ¬ (∀ (total_te ltr_total tir helitron line_pct sine_pct
          ltr_known ltr_unknown : Option ℚ) (thr : PlantThresholds),
        ("HINT_HIGH_LTR_UNKNOWN" ∈
            (classify_plant total_te ltr_total tir helitron line_pct sine_pct
              ltr_known ltr_unknown thr).2.2 ↔
          (∃ u, ltr_unknown = some u ∧
            (u ≥ thr.ltr_unknown_pct_hint ∨
              (∃ t, ltr_total = some t ∧ 0 < t ∧
                u / t ≥ thr.ltr_unknown_ratio_hint))))) := by
  intro h
  have hmem :=
    (h (some 25) none (some 3) none none none none (some 50)
        defaultPlantThresholds).mpr
      ⟨50, rfl, Or.inl (by decide)⟩
  have hnot : "HINT_HIGH_LTR_UNKNOWN" ∉
      (classify_plant (some 25) none (some 3) none none none none (some 50)
        defaultPlantThresholds).2.2 := by decide
  exact hnot hmem

/-- C7 (amended): `classify_plant` emits `HINT_HIGH_LTR_UNKNOWN` exactly
when LTR-unknown% is present AND LTR-total% is present and positive AND
(LTR-unknown ≥ the absolute hint cutoff, or the unknown/total ratio is at
least the ratio hint cutoff); contrary to the claim, the
absolute-percentage condition is also evaluated only under the
`LTR-total present and positive` guard. -/
theorem C7_hint_high_ltr_unknown_amended (total_te ltr_total tir helitron
    line_pct sine_pct ltr_known ltr_unknown : Option ℚ) (thr : PlantThresholds) :
    "HINT_HIGH_LTR_UNKNOWN" ∈
        (classify_plant total_te ltr_total tir helitron line_pct sine_pct
          ltr_known ltr_unknown thr).2.2 ↔
      ∃ u t, ltr_unknown = some u ∧ ltr_total = some t ∧ 0 < t ∧
        (u ≥ thr.ltr_unknown_pct_hint ∨ u / t ≥ thr.ltr_unknown_ratio_hint) := by
  cases helitron <;> cases line_pct <;> cases sine_pct <;> cases ltr_known <;>
    cases ltr_unknown <;> cases ltr_total <;>
      simp [classify_plant, ite3_snd_snd, List.mem_append, mem_ite_list]

/-! ### Parser-side lemmas -/

/-- One iteration of the heading-collecting scan, mirroring
`parseStep`'s control flow (`b` is `in_table`): `none` models the
`Repeat Stats` break, otherwise the next `in_table` flag and the class
names recorded on this line. -/
def headingEmit (b : Bool) (line : String) : Option (Bool × List String) :=
  if b = false then
    if isHeader line then some (true, []) else some (false, [])
  else
    match rowAction line with
    | .halt => none
    | .heading n => some (true, [n])
    | _ => some (true, [])

/-- The class names recorded from class-heading rows during the scan:
nothing before the header, nothing after `Repeat Stats`. -/
def headingNamesAux (b : Bool) : List String → List String
  | [] => []
  | line :: rest =>
      match headingEmit b line with
      | none => []
      | some (b2, ns) => ns ++ headingNamesAux b2 rest

/-- The class-heading names recorded while parsing the given lines. -/
def headingNames (lines : List String) : List String :=
  headingNamesAux false lines

/-- The key a line would produce as a top-level row: the stripped,
uppercased first column. -/
def topKeyOf (line : String) : String :=
  toUpperStr (pstrip ((splitCols (pstrip line)).headD ""))

/-- Membership after a dict assignment: the element was already present
or is the assigned pair. -/
theorem mem_tableInsert {t : Table} {k : String} {e : Entry} {kv : String × Entry}
    (h : kv ∈ tableInsert t k e) : kv ∈ t ∨ kv = (k, e) := by
  unfold tableInsert at h
  split at h
  · rcases List.mem_map.mp h with ⟨kv', hkv', heq⟩
    cases hk : (kv'.1 == k) with
    | true => rw [if_pos hk] at heq; right; exact heq.symm
    | false => rw [if_neg (by simp [hk])] at heq; left; exact heq ▸ hkv'
  · rcases List.mem_append.mp h with h1 | h1
    · left; exact h1
    · right; simpa using h1

/-- Percentages recovered by the `%masked` regex are nonnegative. -/
theorem parsePct_nonneg {s : String} {v : ℚ} (h : parsePct s = some v) : 0 ≤ v := by
  simp only [parsePct] at h
  split_ifs at h <;>
    first
      | exact Option.noConfusion h
      | (rw [Option.some.injEq] at h; subst h; positivity)

/-- A `Total` row stores a nonnegative percentage. -/
theorem rowAction_storeTotal_pct_nonneg {line : String} {e : Entry}
    (h : rowAction line = .storeTotal e) : 0 ≤ e.pct := by
  unfold rowAction at h
  split_ifs at h <;> try simp at h
  split at h <;> try simp at h
  split_ifs at h <;> try simp at h
  split at h <;> try simp at h
  split_ifs at h <;> try simp at h
  all_goals (split at h <;> try simp at h)
  rename_i pct hpct
  subst h
  exact parsePct_nonneg hpct

/-- A `Total interspersed` row stores a nonnegative percentage. -/
theorem rowAction_storeTotalInter_pct_nonneg {line : String} {e : Entry}
    (h : rowAction line = .storeTotalInter e) : 0 ≤ e.pct := by
  unfold rowAction at h
  split_ifs at h <;> try simp at h
  split at h <;> try simp at h
  split_ifs at h <;> try simp at h
  split at h <;> try simp at h
  split_ifs at h <;> try simp at h
  all_goals (split at h <;> try simp at h)
  rename_i pct hpct
  subst h
  exact parsePct_nonneg hpct

/-- An ordinary data row stores a nonnegative percentage, and its name is
the first column of the line. -/
theorem rowAction_store_spec {line : String} {fam : Bool} {n : String} {e : Entry}
    (h : rowAction line = .store fam n e) :
    0 ≤ e.pct ∧ (splitCols (pstrip line)).headD "" = n := by
  unfold rowAction at h
  split_ifs at h <;> try simp at h
  split at h <;> try simp at h
  split_ifs at h <;> try simp at h
  split at h <;> try simp at h
  split_ifs at h <;> try simp at h
  all_goals (split at h <;> try simp at h)
  rename_i pct hpct
  obtain ⟨hfam, hname, hent⟩ := h
  subst hent
  subst hname
  refine ⟨parsePct_nonneg hpct, ?_⟩
  simp_all


/-- Case analysis of one parser step. -/
theorem parseStep_cases {st : PState} {line : String} {st2 : PState}
    (hps : parseStep st line = some st2) :
    (st.inTable = false ∧ isHeader line = true ∧ st2 = ⟨true, none, st.out⟩) ∨
    (st.inTable = false ∧ isHeader line = false ∧ st2 = st) ∨
    (st.inTable = true ∧ rowAction line = .skip ∧ st2 = st) ∨
    (st.inTable = true ∧ ∃ n, rowAction line = .heading n ∧
      st2 = ⟨st.inTable, some n, st.out⟩) ∨
    (st.inTable = true ∧ ∃ e, rowAction line = .storeTotal e ∧
      st2 = ⟨st.inTable, none, tableInsert st.out "TOTAL" e⟩) ∨
    (st.inTable = true ∧ ∃ e, rowAction line = .storeTotalInter e ∧
      st2 = ⟨st.inTable, st.currentClass, tableInsert st.out "TOTAL_INTERSPERSED" e⟩) ∨
    (st.inTable = true ∧ ∃ fam n e, rowAction line = .store fam n e ∧
      st2 = ⟨st.inTable, st.currentClass,
        tableInsert st.out (storeKey st.currentClass fam n) e⟩) := by
  unfold parseStep at hps
  split_ifs at hps with hb hh
  · exact Or.inl ⟨hb, hh, (Option.some.inj hps).symm⟩
  · exact Or.inr (Or.inl ⟨hb, by simpa using hh, (Option.some.inj hps).symm⟩)
  · have hb2 : st.inTable = true := by
      revert hb; cases st.inTable <;> simp
    split at hps
    · exact Option.noConfusion hps
    · rename_i hra
      exact Or.inr (Or.inr (Or.inl ⟨hb2, hra, (Option.some.inj hps).symm⟩))
    · rename_i n hra
      exact Or.inr (Or.inr (Or.inr (Or.inl ⟨hb2, n, hra, (Option.some.inj hps).symm⟩)))
    · rename_i e hra
      exact Or.inr (Or.inr (Or.inr (Or.inr (Or.inl ⟨hb2, e, hra,
        (Option.some.inj hps).symm⟩))))
    · rename_i e hra
      exact Or.inr (Or.inr (Or.inr (Or.inr (Or.inr (Or.inl ⟨hb2, e, hra,
        (Option.some.inj hps).symm⟩)))))
    · rename_i fam n e hra
      exact Or.inr (Or.inr (Or.inr (Or.inr (Or.inr (Or.inr ⟨hb2, fam, n, e, hra,
        (Option.some.inj hps).symm⟩)))))


/-- The scan preserves nonnegativity of all stored percentages. -/
theorem parseLines_pct_nonneg (lines : List String) : ∀ (st : PState),
    (∀ kv ∈ st.out, 0 ≤ kv.2.pct) → ∀ kv ∈ parseLines st lines, 0 ≤ kv.2.pct := by
  induction lines with
  | nil => intro st h kv hm; exact h kv hm
  | cons line rest ih =>
      intro st h kv hm
      simp only [parseLines] at hm
      cases hps : parseStep st line with
      | none => rw [hps] at hm; exact h kv hm
      | some st2 =>
          rw [hps] at hm
          refine ih st2 ?_ kv hm
          intro kv2 hkv2
          rcases parseStep_cases hps with ⟨_, _, h2⟩ | ⟨_, _, h2⟩ | ⟨_, _, h2⟩ |
            ⟨_, n, hra, h2⟩ | ⟨_, e, hra, h2⟩ | ⟨_, e, hra, h2⟩ |
            ⟨_, fam, n, e, hra, h2⟩ <;> subst h2
          · exact h kv2 hkv2
          · exact h kv2 hkv2
          · exact h kv2 hkv2
          · exact h kv2 hkv2
          · rcases mem_tableInsert hkv2 with h1 | h1
            · exact h kv2 h1
            · rw [h1]; exact rowAction_storeTotal_pct_nonneg hra
          · rcases mem_tableInsert hkv2 with h1 | h1
            · exact h kv2 h1
            · rw [h1]; exact rowAction_storeTotalInter_pct_nonneg hra
          · rcases mem_tableInsert hkv2 with h1 | h1
            · exact h kv2 h1
            · rw [h1]; exact (rowAction_store_spec hra).1


/-- Provenance of every key of the parsed table: already present, a
reserved total key, a composite `class/family` key whose class is the
active class or a recorded heading, or the uppercased first column of
some input line. -/
theorem parse_key_origin (lines : List String) : ∀ (st : PState) (kv : String × Entry),
    kv ∈ parseLines st lines →
    kv ∈ st.out ∨ kv.1 = "TOTAL" ∨ kv.1 = "TOTAL_INTERSPERSED" ∨
    (∃ c f, kv.1 = c ++ "/" ++ f ∧
      (st.currentClass = some c ∨ c ∈ headingNamesAux st.inTable lines)) ∨
    (∃ l ∈ lines, kv.1 = topKeyOf l) := by
  induction lines with
  | nil => intro st kv hm; exact Or.inl hm
  | cons line rest ih =>
      intro st kv hm
      simp only [parseLines] at hm
      cases hps : parseStep st line with
      | none => rw [hps] at hm; exact Or.inl hm
      | some st2 =>
          rw [hps] at hm
          rcases parseStep_cases hps with ⟨hb, hh, h2⟩ | ⟨hb, hh, h2⟩ | ⟨hb, hra, h2⟩ |
            ⟨hb, n, hra, h2⟩ | ⟨hb, e, hra, h2⟩ | ⟨hb, e, hra, h2⟩ |
            ⟨hb, fam, n, e, hra, h2⟩ <;> subst h2
          · -- header found
            have haux : headingNamesAux st.inTable (line :: rest) =
                headingNamesAux true rest := by
              rw [hb]; simp [headingNamesAux, headingEmit, hh]
            rcases ih _ kv hm with h1 | h1 | h1 | ⟨c, f, hcf, hc⟩ | ⟨l, hl, hk⟩
            · exact Or.inl h1
            · exact Or.inr (Or.inl h1)
            · exact Or.inr (Or.inr (Or.inl h1))
            · refine Or.inr (Or.inr (Or.inr (Or.inl ⟨c, f, hcf, Or.inr ?_⟩)))
              rcases hc with hcc | hcc
              · exact absurd hcc (by simp)
              · rw [haux]; exact hcc
            · exact Or.inr (Or.inr (Or.inr (Or.inr ⟨l, List.mem_cons_of_mem _ hl, hk⟩)))
          · -- before the header, non-header line
            have haux : headingNamesAux st2.inTable (line :: rest) =
                headingNamesAux false rest := by
              rw [hb]; simp [headingNamesAux, headingEmit, hh]
            rcases ih _ kv hm with h1 | h1 | h1 | ⟨c, f, hcf, hc⟩ | ⟨l, hl, hk⟩
            · exact Or.inl h1
            · exact Or.inr (Or.inl h1)
            · exact Or.inr (Or.inr (Or.inl h1))
            · refine Or.inr (Or.inr (Or.inr (Or.inl ⟨c, f, hcf, ?_⟩)))
              rcases hc with hcc | hcc
              · exact Or.inl hcc
              · rw [hb] at hcc; rw [haux]; exact Or.inr hcc
            · exact Or.inr (Or.inr (Or.inr (Or.inr ⟨l, List.mem_cons_of_mem _ hl, hk⟩)))
          · -- skipped row
            have haux : headingNamesAux st2.inTable (line :: rest) =
                headingNamesAux true rest := by
              rw [hb]; simp [headingNamesAux, headingEmit, hra]
            rcases ih _ kv hm with h1 | h1 | h1 | ⟨c, f, hcf, hc⟩ | ⟨l, hl, hk⟩
            · exact Or.inl h1
            · exact Or.inr (Or.inl h1)
            · exact Or.inr (Or.inr (Or.inl h1))
            · refine Or.inr (Or.inr (Or.inr (Or.inl ⟨c, f, hcf, ?_⟩)))
              rcases hc with hcc | hcc
              · exact Or.inl hcc
              · rw [hb] at hcc; rw [haux]; exact Or.inr hcc
            · exact Or.inr (Or.inr (Or.inr (Or.inr ⟨l, List.mem_cons_of_mem _ hl, hk⟩)))
          · -- heading row
            have haux : headingNamesAux st.inTable (line :: rest) =
                n :: headingNamesAux true rest := by
              rw [hb]; simp [headingNamesAux, headingEmit, hra]
            rcases ih _ kv hm with h1 | h1 | h1 | ⟨c, f, hcf, hc⟩ | ⟨l, hl, hk⟩
            · exact Or.inl h1
            · exact Or.inr (Or.inl h1)
            · exact Or.inr (Or.inr (Or.inl h1))
            · refine Or.inr (Or.inr (Or.inr (Or.inl ⟨c, f, hcf, Or.inr ?_⟩)))
              rcases hc with hcc | hcc
              · have hcn : c = n := (Option.some.inj hcc).symm
                subst hcn
                rw [haux]; exact List.mem_cons_self _ _
              · rw [hb] at hcc; rw [haux]; exact List.mem_cons_of_mem _ hcc
            · exact Or.inr (Or.inr (Or.inr (Or.inr ⟨l, List.mem_cons_of_mem _ hl, hk⟩)))
          · -- Total row
            have haux : headingNamesAux st.inTable (line :: rest) =
                headingNamesAux true rest := by
              rw [hb]; simp [headingNamesAux, headingEmit, hra]
            rcases ih _ kv hm with h1 | h1 | h1 | ⟨c, f, hcf, hc⟩ | ⟨l, hl, hk⟩
            · rcases mem_tableInsert h1 with h3 | h3
              · exact Or.inl h3
              · exact Or.inr (Or.inl (by rw [h3]))
            · exact Or.inr (Or.inl h1)
            · exact Or.inr (Or.inr (Or.inl h1))
            · refine Or.inr (Or.inr (Or.inr (Or.inl ⟨c, f, hcf, Or.inr ?_⟩)))
              rcases hc with hcc | hcc
              · exact absurd hcc (by simp)
              · rw [hb] at hcc; rw [haux]; exact hcc
            · exact Or.inr (Or.inr (Or.inr (Or.inr ⟨l, List.mem_cons_of_mem _ hl, hk⟩)))
          · -- Total interspersed row
            have haux : headingNamesAux st.inTable (line :: rest) =
                headingNamesAux true rest := by
              rw [hb]; simp [headingNamesAux, headingEmit, hra]
            rcases ih _ kv hm with h1 | h1 | h1 | ⟨c, f, hcf, hc⟩ | ⟨l, hl, hk⟩
            · rcases mem_tableInsert h1 with h3 | h3
              · exact Or.inl h3
              · exact Or.inr (Or.inr (Or.inl (by rw [h3])))
            · exact Or.inr (Or.inl h1)
            · exact Or.inr (Or.inr (Or.inl h1))
            · refine Or.inr (Or.inr (Or.inr (Or.inl ⟨c, f, hcf, ?_⟩)))
              rcases hc with hcc | hcc
              · exact Or.inl hcc
              · rw [hb] at hcc; rw [haux]; exact Or.inr hcc
            · exact Or.inr (Or.inr (Or.inr (Or.inr ⟨l, List.mem_cons_of_mem _ hl, hk⟩)))
          · -- ordinary data row
            have haux : headingNamesAux st.inTable (line :: rest) =
                headingNamesAux true rest := by
              rw [hb]; simp [headingNamesAux, headingEmit, hra]
            have hname : (splitCols (pstrip line)).headD "" = n :=
              (rowAction_store_spec hra).2
            rcases ih _ kv hm with h1 | h1 | h1 | ⟨c, f, hcf, hc⟩ | ⟨l, hl, hk⟩
            · rcases mem_tableInsert h1 with h3 | h3
              · exact Or.inl h3
              · cases hccs : st.currentClass with
                | none =>
                    refine Or.inr (Or.inr (Or.inr (Or.inr
                      ⟨line, List.mem_cons_self _ _, ?_⟩)))
                    have htop : topKeyOf line = toUpperStr (pstrip n) := by
                      unfold topKeyOf; rw [hname]
                    rw [h3, hccs, htop]
                    simp [storeKey]
                | some c0 =>
                    cases fam with
                    | false =>
                        refine Or.inr (Or.inr (Or.inr (Or.inr
                          ⟨line, List.mem_cons_self _ _, ?_⟩)))
                        have htop : topKeyOf line = toUpperStr (pstrip n) := by
                          unfold topKeyOf; rw [hname]
                        rw [h3, hccs, htop]
                        simp [storeKey]
                    | true =>
                        refine Or.inr (Or.inr (Or.inr (Or.inl
                          ⟨c0, pstrip n, ?_, Or.inl rfl⟩)))
                        rw [h3, hccs]
                        simp [storeKey]
            · exact Or.inr (Or.inl h1)
            · exact Or.inr (Or.inr (Or.inl h1))
            · refine Or.inr (Or.inr (Or.inr (Or.inl ⟨c, f, hcf, ?_⟩)))
              rcases hc with hcc | hcc
              · exact Or.inl hcc
              · rw [hb] at hcc; rw [haux]; exact Or.inr hcc
            · exact Or.inr (Or.inr (Or.inr (Or.inr ⟨l, List.mem_cons_of_mem _ hl, hk⟩)))


/-- Without a header line the scan stores nothing. -/
theorem parseLines_no_header (lines : List String) : ∀ (cc : Option String) (out : Table),
    (∀ l ∈ lines, isHeader l = false) → parseLines ⟨false, cc, out⟩ lines = out := by
  induction lines with
  | nil => intro cc out _; rfl
  | cons line rest ih =>
      intro cc out h
      have hh : isHeader line = false := h line (List.mem_cons_self _ _)
      have hstep : parseStep ⟨false, cc, out⟩ line = some ⟨false, cc, out⟩ := by
        have hand : parseStep ⟨false, cc, out⟩ line =
            if isHeader line then some ⟨true, none, out⟩ else some ⟨false, cc, out⟩ := rfl
        rw [hand, if_neg (by simp [hh])]
      simp only [parseLines]
      rw [hstep]
      exact ih cc out (fun l hl => h l (List.mem_cons_of_mem _ hl))


/-! ### C1: the tech-fail short circuit -/

/-- The completeness check only consults file non-emptiness and
directory existence. -/
theorem tech_check_congr (g fs : FS) (paths : SamplePaths) (cfg : TechConfig)
    (h1 : g.nonemptyFile = fs.nonemptyFile) (h2 : g.isDir = fs.isDir) :
    tech_check g paths cfg = tech_check fs paths cfg := by
  unfold tech_check; rw [h1, h2]

theorem mem_ite_singleton {c : Prop} [Decidable c] {a m : String}
    (h : m ∈ (if c then [a] else ([] : List String))) : m = a := by
  split at h
  · simpa using h
  · simp at h

theorem snd_of_ne_nil {l : List String} (x : String) (hx : x ∈ l) :
    x ∈ ((if l ≠ [] then (("FAIL" : String), l) else ("PASS", [])) :
      String × List String).2 := by
  rw [if_pos (List.ne_nil_of_mem hx)]
  exact hx

theorem snd_cases {l : List String} {m : String}
    (h : m ∈ ((if l ≠ [] then (("FAIL" : String), l) else ("PASS", [])) :
      String × List String).2) : m ∈ l := by
  split at h
  · exact h
  · simp at h

theorem tech_check_telib_mem (fs : FS) (paths : SamplePaths) (cfg : TechConfig)
    (hreq : cfg.require_telib_fa = true)
    (habs : paths.telib_fa = "" ∨ fs.nonemptyFile paths.telib_fa = false) :
    "TElib.fa" ∈ (tech_check fs paths cfg).2 := by
  have hlib : "TElib.fa" ∈ (if cfg.require_telib_fa = true ∧
      (paths.telib_fa = "" ∨ fs.nonemptyFile paths.telib_fa = false) then
      ["TElib.fa"] else ([] : List String)) := by
    rw [if_pos ⟨hreq, habs⟩]; exact List.mem_singleton_self _
  have hchain : "TElib.fa" ∈
      ((((if cfg.require_teanno_sum = true ∧
          (paths.teanno_sum = "" ∨ fs.nonemptyFile paths.teanno_sum = false) then
        ["TEanno.sum"] else ([] : List String)) ++
      (if cfg.require_teanno_gff3 = true ∧
          (paths.teanno_gff3 = "" ∨ fs.nonemptyFile paths.teanno_gff3 = false) then
        ["TEanno.gff3"] else ([] : List String))) ++
      (if cfg.require_telib_fa = true ∧
          (paths.telib_fa = "" ∨ fs.nonemptyFile paths.telib_fa = false) then
        ["TElib.fa"] else ([] : List String))) ++
      (if cfg.require_anno_dir = true ∧
          (paths.anno_dir = "" ∨ fs.isDir paths.anno_dir = false) then
        ["EDTA.anno/"] else ([] : List String))) :=
    List.mem_append.mpr (Or.inl (List.mem_append.mpr (Or.inr hlib)))
  exact snd_of_ne_nil _ hchain

theorem tech_check_missing_sub (fs : FS) (paths : SamplePaths) (cfg : TechConfig) :
    ∀ m ∈ (tech_check fs paths cfg).2,
      m ∈ ["TEanno.sum", "TEanno.gff3", "TElib.fa", "EDTA.anno/"] := by
  intro m hm
  have hm2 : m ∈
      ((((if cfg.require_teanno_sum = true ∧
          (paths.teanno_sum = "" ∨ fs.nonemptyFile paths.teanno_sum = false) then
        ["TEanno.sum"] else ([] : List String)) ++
      (if cfg.require_teanno_gff3 = true ∧
          (paths.teanno_gff3 = "" ∨ fs.nonemptyFile paths.teanno_gff3 = false) then
        ["TEanno.gff3"] else ([] : List String))) ++
      (if cfg.require_telib_fa = true ∧
          (paths.telib_fa = "" ∨ fs.nonemptyFile paths.telib_fa = false) then
        ["TElib.fa"] else ([] : List String))) ++
      (if cfg.require_anno_dir = true ∧
          (paths.anno_dir = "" ∨ fs.isDir paths.anno_dir = false) then
        ["EDTA.anno/"] else ([] : List String))) := snd_cases hm
  rcases List.mem_append.mp hm2 with h | h
  · rcases List.mem_append.mp h with h | h
    · rcases List.mem_append.mp h with h | h
      · rw [mem_ite_singleton h]; simp
      · rw [mem_ite_singleton h]; simp
    · rw [mem_ite_singleton h]; simp
  · rw [mem_ite_singleton h]; simp

/-- C1: when the completeness check fails, `classify_one` returns the
short-circuit Record: overall FAIL, tech FAIL, bio NA, every metric field
absent and the presence flags zero, `missing` as reported by
`tech_check`; the result does not depend on the summary file's content
(no parsing/extraction/classification happens), and a sample whose
required repeat-library file is absent — e.g. an animal-profile sample —
has `TElib.fa` in `missing`. -/
theorem C1_tech_fail_short_circuit (fs : FS) (paths : SamplePaths) (profile : String)
    (plant_thr : PlantThresholds) (animal_thr : AnimalThresholds)
    (fungi_thr : FungiThresholds) (cfg : TechConfig) (missing : List String)
    (htc : tech_check fs paths cfg = ("FAIL", missing)) (hne : missing ≠ []) :
    (classify_one fs paths profile plant_thr animal_thr fungi_thr cfg).overall_status
        = "FAIL" ∧
    (classify_one fs paths profile plant_thr animal_thr fungi_thr cfg).tech_status
        = "FAIL" ∧
    (classify_one fs paths profile plant_thr animal_thr fungi_thr cfg).bio_status = "NA" ∧
    (classify_one fs paths profile plant_thr animal_thr fungi_thr cfg).total_te_pct
        = none ∧
    (classify_one fs paths profile plant_thr animal_thr fungi_thr cfg).total_te_bp
        = none ∧
    (classify_one fs paths profile plant_thr animal_thr fungi_thr cfg).total_te_source
        = "NA" ∧
    (classify_one fs paths profile plant_thr animal_thr fungi_thr cfg).ltr_total_pct
        = none ∧
    (classify_one fs paths profile plant_thr animal_thr fungi_thr cfg).ltr_total_bp
        = none ∧
    (classify_one fs paths profile plant_thr animal_thr fungi_thr cfg).ltr_known_pct
        = none ∧
    (classify_one fs paths profile plant_thr animal_thr fungi_thr cfg).ltr_known_bp
        = none ∧
    (classify_one fs paths profile plant_thr animal_thr fungi_thr cfg).ltr_unknown_pct
        = none ∧
    (classify_one fs paths profile plant_thr animal_thr fungi_thr cfg).ltr_unknown_bp
        = none ∧
    (classify_one fs paths profile plant_thr animal_thr fungi_thr cfg).tir_pct = none ∧
    (classify_one fs paths profile plant_thr animal_thr fungi_thr cfg).tir_bp = none ∧
    (classify_one fs paths profile plant_thr animal_thr fungi_thr cfg).helitron_pct
        = none ∧
    (classify_one fs paths profile plant_thr animal_thr fungi_thr cfg).helitron_bp
        = none ∧
    (classify_one fs paths profile plant_thr animal_thr fungi_thr cfg).line_present = 0 ∧
    (classify_one fs paths profile plant_thr animal_thr fungi_thr cfg).line_pct = none ∧
    (classify_one fs paths profile plant_thr animal_thr fungi_thr cfg).line_bp = none ∧
    (classify_one fs paths profile plant_thr animal_thr fungi_thr cfg).sine_present = 0 ∧
    (classify_one fs paths profile plant_thr animal_thr fungi_thr cfg).sine_pct = none ∧
    (classify_one fs paths profile plant_thr animal_thr fungi_thr cfg).sine_bp = none ∧
    (classify_one fs paths profile plant_thr animal_thr fungi_thr cfg).missing = missing ∧
    (∀ g : FS, g.nonemptyFile = fs.nonemptyFile → g.isDir = fs.isDir →
      classify_one g paths profile plant_thr animal_thr fungi_thr cfg =
        classify_one fs paths profile plant_thr animal_thr fungi_thr cfg) ∧
    (cfg.require_telib_fa = true →
      (paths.telib_fa = "" ∨ fs.nonemptyFile paths.telib_fa = false) →
      "TElib.fa" ∈
        (classify_one fs paths profile plant_thr animal_thr fungi_thr cfg).missing) := by
  have hmain : classify_one fs paths profile plant_thr animal_thr fungi_thr cfg =
      { profile := profile, genome_id := extract_genome_id (basename paths.sample_dir),
        sample_id := basename paths.sample_dir,
        overall_status := "FAIL", tech_status := "FAIL", bio_status := "NA",
        total_te_pct := none, total_te_bp := none, total_te_source := "NA",
        ltr_total_pct := none, ltr_total_bp := none,
        ltr_known_pct := none, ltr_known_bp := none,
        ltr_unknown_pct := none, ltr_unknown_bp := none,
        tir_pct := none, tir_bp := none,
        helitron_pct := none, helitron_bp := none,
        line_present := 0, line_pct := none, line_bp := none,
        sine_present := 0, sine_pct := none, sine_bp := none,
        notes := "TECH_FAIL: incomplete EDTA output",
        tags := missing.map (fun m => "TECH_MISSING_" ++ m),
        missing := missing,
        teanno_sum := if paths.teanno_sum = "" then "NA" else paths.teanno_sum,
        sample_dir := paths.sample_dir } := by
    simp [classify_one, htc]
  refine ⟨by rw [hmain], by rw [hmain], by rw [hmain], by rw [hmain], by rw [hmain],
    by rw [hmain], by rw [hmain], by rw [hmain], by rw [hmain], by rw [hmain],
    by rw [hmain], by rw [hmain], by rw [hmain], by rw [hmain], by rw [hmain],
    by rw [hmain], by rw [hmain], by rw [hmain], by rw [hmain], by rw [hmain],
    by rw [hmain], by rw [hmain], by rw [hmain], ?_, ?_⟩
  · intro g hg1 hg2
    have hgtc : tech_check g paths cfg = ("FAIL", missing) := by
      rw [tech_check_congr g fs paths cfg hg1 hg2, htc]
    have hgmain : classify_one g paths profile plant_thr animal_thr fungi_thr cfg =
        classify_one fs paths profile plant_thr animal_thr fungi_thr cfg := by
      rw [hmain]
      simp [classify_one, hgtc]
    exact hgmain
  · intro hreq habs
    rw [hmain]
    have := tech_check_telib_mem fs paths cfg hreq habs
    rw [htc] at this
    exact this


/-- The source label `pick_total` reports is always one of the three labels. -/
theorem pick_total_source_mem (te : Table) :
    (pick_total te).2.2.1 ∈ ["TOTAL", "TOTAL_INTERSPERSED", "MISSING"] := by
  simp only [pick_total]
  split_ifs <;> simp

/-- Membership in an if-then-else of lists comes from one branch. -/
theorem mem_ite_or {t : String} {c : Prop} [Decidable c] {A B : List String}
    (h : t ∈ (if c then A else B)) : t ∈ A ∨ t ∈ B := by
  split at h
  · exact Or.inl h
  · exact Or.inr h

/-- Membership in an Option-match of lists comes from one branch. -/
theorem mem_opt_or {t : String} {o : Option ℚ} {A : List String} {B : ℚ → List String}
    (h : t ∈ (match o with | none => A | some v => B v)) :
    t ∈ A ∨ ∃ v, t ∈ B v := by
  cases o
  · exact Or.inl h
  · exact Or.inr ⟨_, h⟩

/-- Membership in a two-Option match that is empty unless both are `some`. -/
theorem mem_opt2_or {t : String} {o1 o2 : Option ℚ} {B : ℚ → ℚ → List String}
    (h : t ∈ (match o1, o2 with
              | some u, some w => B u w
              | _, _ => ([] : List String))) :
    ∃ u w, t ∈ B u w := by
  cases o1 with
  | none => simp at h
  | some u =>
      cases o2 with
      | none => simp at h
      | some w => exact ⟨u, w, h⟩

/-- Every tag `classify_plant` emits belongs to its fixed tag vocabulary. -/
theorem classify_plant_tags_sub (total_te ltr_total tir helitron line_pct sine_pct
    ltr_known ltr_unknown : Option ℚ) (thr : PlantThresholds) :
    ∀ t ∈ (classify_plant total_te ltr_total tir helitron line_pct sine_pct
        ltr_known ltr_unknown thr).2.2,
      t ∈ ["HARD_FAIL_TOTAL_TE", "HARD_SUSPECT_TOTAL_TE", "HARD_FAIL_LTR_TOTAL",
        "HARD_SUSPECT_LTR_TOTAL", "HARD_FAIL_TIR", "HARD_SUSPECT_TIR",
        "WARN_HELITRON_NOT_REPORTED", "WARN_LOW_HELITRON", "WARN_LINE_NOT_REPORTED",
        "WARN_LINE_ZERO", "WARN_SINE_NOT_REPORTED", "WARN_SINE_ZERO",
        "WARN_LTR_KNOWN_NOT_REPORTED", "HINT_LOW_LTR_KNOWN",
        "HINT_HIGH_LTR_UNKNOWN"] := by
  intro t ht
  simp only [classify_plant, ite3_snd_snd, List.mem_append] at ht
  rcases ht with ((((((h | h) | h) | h) | h) | h) | h) | h
  · rcases mem_ite_or h with h | h
    · rw [List.mem_singleton.mp h]; simp
    · rcases mem_ite_or h with h | h
      · rw [List.mem_singleton.mp h]; simp
      · simp at h
  · rcases mem_ite_or h with h | h
    · rw [List.mem_singleton.mp h]; simp
    · rcases mem_ite_or h with h | h
      · rw [List.mem_singleton.mp h]; simp
      · simp at h
  · rcases mem_ite_or h with h | h
    · rw [List.mem_singleton.mp h]; simp
    · rcases mem_ite_or h with h | h
      · rw [List.mem_singleton.mp h]; simp
      · simp at h
  · rcases mem_opt_or h with h | ⟨v, h⟩
    · rw [List.mem_singleton.mp h]; simp
    · rcases mem_ite_or h with h | h
      · rw [List.mem_singleton.mp h]; simp
      · rcases mem_ite_or h with h | h
        · rw [List.mem_singleton.mp h]; simp
        · simp at h
  · rcases mem_opt_or h with h | ⟨v, h⟩
    · rw [List.mem_singleton.mp h]; simp
    · rcases mem_ite_or h with h | h
      · rw [List.mem_singleton.mp h]; simp
      · simp at h
  · rcases mem_opt_or h with h | ⟨v, h⟩
    · rw [List.mem_singleton.mp h]; simp
    · rcases mem_ite_or h with h | h
      · rw [List.mem_singleton.mp h]; simp
      · simp at h
  · rcases mem_opt_or h with h | ⟨v, h⟩
    · rw [List.mem_singleton.mp h]; simp
    · rcases mem_ite_or h with h | h
      · rw [List.mem_singleton.mp h]; simp
      · simp at h
  · rcases mem_opt2_or h with ⟨u, w, h⟩
    · rcases mem_ite_or h with h | h
      · rcases mem_ite_or h with h | h
        · rw [List.mem_singleton.mp h]; simp
        · simp at h
      · simp at h

/-- Every tag `classify_animal` emits belongs to its fixed tag vocabulary. -/
theorem classify_animal_tags_sub (total_te ltr_total tir line_pct sine_pct : Option ℚ)
    (thr : AnimalThresholds) :
    ∀ t ∈ (classify_animal total_te ltr_total tir line_pct sine_pct thr).2.2,
      t ∈ ["HARD_FAIL_TOTAL_TE", "HARD_SUSPECT_TOTAL_TE", "WARN_LOW_LTR",
        "WARN_LOW_TIR", "WARN_LOW_NONLTR"] := by
  intro t ht
  simp only [classify_animal, List.mem_append] at ht
  rcases ht with ((h | h) | h) | h
  · rcases mem_ite_or h with h | h
    · rw [List.mem_singleton.mp h]; simp
    · rcases mem_ite_or h with h | h
      · rw [List.mem_singleton.mp h]; simp
      · simp at h
  · rcases mem_opt_or h with h | ⟨v, h⟩
    · rw [List.mem_singleton.mp h]; simp
    · rcases mem_ite_or h with h | h
      · rw [List.mem_singleton.mp h]; simp
      · simp at h
  · rcases mem_opt_or h with h | ⟨v, h⟩
    · rw [List.mem_singleton.mp h]; simp
    · rcases mem_ite_or h with h | h
      · rw [List.mem_singleton.mp h]; simp
      · simp at h
  · rcases mem_ite_or h with h | h
    · rw [List.mem_singleton.mp h]; simp
    · simp at h

/-- Every tag `classify_fungi` emits belongs to its fixed tag vocabulary. -/
theorem classify_fungi_tags_sub (total_te ltr_total tir helitron line_pct
    sine_pct : Option ℚ) (thr : FungiThresholds) :
    ∀ t ∈ (classify_fungi total_te ltr_total tir helitron line_pct sine_pct thr).2.2,
      t ∈ ["HARD_FAIL_TOTAL_TE", "HARD_SUSPECT_TOTAL_TE", "WARN_LOW_LTR",
        "WARN_LOW_TIR", "WARN_HELITRON_NOT_REPORTED", "WARN_LINE_NOT_REPORTED",
        "WARN_SINE_NOT_REPORTED"] := by
  intro t ht
  simp only [classify_fungi, List.mem_append] at ht
  rcases ht with ((((h | h) | h) | h) | h) | h
  · rcases mem_ite_or h with h | h
    · rw [List.mem_singleton.mp h]; simp
    · rcases mem_ite_or h with h | h
      · rw [List.mem_singleton.mp h]; simp
      · simp at h
  · rcases mem_opt_or h with h | ⟨v, h⟩
    · rw [List.mem_singleton.mp h]; simp
    · rcases mem_ite_or h with h | h
      · rw [List.mem_singleton.mp h]; simp
      · simp at h
  · rcases mem_opt_or h with h | ⟨v, h⟩
    · rw [List.mem_singleton.mp h]; simp
    · rcases mem_ite_or h with h | h
      · rw [List.mem_singleton.mp h]; simp
      · simp at h
  · rcases mem_opt_or h with h | ⟨v, h⟩
    · rw [List.mem_singleton.mp h]; simp
    · simp at h
  · rcases mem_opt_or h with h | ⟨v, h⟩
    · rw [List.mem_singleton.mp h]; simp
    · simp at h
  · rcases mem_opt_or h with h | ⟨v, h⟩
    · rw [List.mem_singleton.mp h]; simp
    · simp at h


/-- C9 (amended): in every record `classify_one` builds, each tag is free of
the `;` separator, and each missing label is one of the FIVE labels the code
can produce: the four the spec lists (`TEanno.sum`, `TEanno.gff3`, `TElib.fa`,
`EDTA.anno/`) plus `TEanno.sum(parse_error)` from the parse-error branch,
which the spec's sentence omits. -/
theorem C9_record_vocab_amended (fs : FS) (paths : SamplePaths) (profile : String)
    (plant_thr : PlantThresholds) (animal_thr : AnimalThresholds)
    (fungi_thr : FungiThresholds) (cfg : TechConfig) :
    (∀ t ∈ (classify_one fs paths profile plant_thr animal_thr fungi_thr cfg).tags,
      ';' ∉ t.data) ∧
    (∀ m ∈ (classify_one fs paths profile plant_thr animal_thr fungi_thr cfg).missing,
      m ∈ ["TEanno.sum", "TEanno.gff3", "TElib.fa", "EDTA.anno/",
        "TEanno.sum(parse_error)"]) := by
  constructor
  · intro t ht
    simp only [classify_one] at ht
    split at ht
    · rcases List.mem_map.mp ht with ⟨m, hm, rfl⟩
      have h4 := tech_check_missing_sub fs paths cfg m hm
      simp only [List.mem_cons, List.not_mem_nil, or_false] at h4
      rcases h4 with rfl | rfl | rfl | rfl <;> decide
    · split at ht
      · simp only [List.mem_singleton] at ht
        subst ht
        decide
      · have ht2 := (List.mem_filter.mp ht).1
        rcases List.mem_append.mp ht2 with h | h
        · simp only [List.mem_singleton] at h
          subst h
          have hsrc := pick_total_source_mem
            (parse_teanno_sum_repeat_classes (fs.fileLines paths.teanno_sum))
          simp only [List.mem_cons, List.not_mem_nil, or_false] at hsrc
          rcases hsrc with h | h | h <;> rw [h] <;> decide
        · split at h
          · exact (by decide : ∀ x ∈ ["HARD_FAIL_TOTAL_TE", "HARD_SUSPECT_TOTAL_TE",
              "HARD_FAIL_LTR_TOTAL", "HARD_SUSPECT_LTR_TOTAL", "HARD_FAIL_TIR",
              "HARD_SUSPECT_TIR", "WARN_HELITRON_NOT_REPORTED", "WARN_LOW_HELITRON",
              "WARN_LINE_NOT_REPORTED", "WARN_LINE_ZERO", "WARN_SINE_NOT_REPORTED",
              "WARN_SINE_ZERO", "WARN_LTR_KNOWN_NOT_REPORTED", "HINT_LOW_LTR_KNOWN",
              "HINT_HIGH_LTR_UNKNOWN"], ';' ∉ x.data) t
              (classify_plant_tags_sub _ _ _ _ _ _ _ _ _ t h)
          · split at h
            · exact (by decide : ∀ x ∈ ["HARD_FAIL_TOTAL_TE", "HARD_SUSPECT_TOTAL_TE",
                "WARN_LOW_LTR", "WARN_LOW_TIR", "WARN_LOW_NONLTR"], ';' ∉ x.data) t
                (classify_animal_tags_sub _ _ _ _ _ _ t h)
            · exact (by decide : ∀ x ∈ ["HARD_FAIL_TOTAL_TE", "HARD_SUSPECT_TOTAL_TE",
                "WARN_LOW_LTR", "WARN_LOW_TIR", "WARN_HELITRON_NOT_REPORTED",
                "WARN_LINE_NOT_REPORTED", "WARN_SINE_NOT_REPORTED"], ';' ∉ x.data) t
                (classify_fungi_tags_sub _ _ _ _ _ _ _ t h)
  · intro m hm
    simp only [classify_one] at hm
    split at hm
    · have h4 := tech_check_missing_sub fs paths cfg m ?_
      · simp only [List.mem_cons, List.not_mem_nil, or_false] at h4
        rcases h4 with rfl | rfl | rfl | rfl <;> simp
      · rename_i htc
        exact hm
    · split at hm
      · simp only [List.mem_singleton] at hm
        subst hm
        simp
      · simp at hm


/-- A single member's `pct` is at most the sum of `pct` over a list of non-negative `pct`s. -/
theorem single_pct_le_sum (l : List (String × Entry)) (a : String × Entry)
    (h0 : ∀ kv ∈ l, 0 ≤ kv.2.pct) (ha : a ∈ l) :
    a.2.pct ≤ (l.map (fun kv => kv.2.pct)).sum :=
  List.single_le_sum
    (by intro x hx; rcases List.mem_map.mp hx with ⟨kv, hkv, rfl⟩; exact h0 kv hkv) _
    (List.mem_map_of_mem _ ha)

/-- Two distinct members' `pct`s together are at most the sum over a list of non-negative `pct`s. -/
theorem pair_pct_le_sum : ∀ (l : List (String × Entry)) (a b : String × Entry),
    (∀ kv ∈ l, 0 ≤ kv.2.pct) → a ∈ l → b ∈ l → a.1 ≠ b.1 →
    a.2.pct + b.2.pct ≤ (l.map (fun kv => kv.2.pct)).sum := by
  intro l
  induction l with
  | nil => intro a b _ ha _ _; simp at ha
  | cons x xs ih =>
      intro a b h0 ha hb hne
      have h0x : 0 ≤ x.2.pct := h0 x (List.mem_cons_self _ _)
      have h0xs : ∀ kv ∈ xs, 0 ≤ kv.2.pct :=
        fun kv hkv => h0 kv (List.mem_cons_of_mem _ hkv)
      rcases List.mem_cons.mp ha with rfl | ha2
      · have hb2 : b ∈ xs := by
          rcases List.mem_cons.mp hb with rfl | h
          · exact absurd rfl hne
          · exact h
        have hble : b.2.pct ≤ (xs.map (fun kv => kv.2.pct)).sum :=
          single_pct_le_sum xs b h0xs hb2
        simp only [List.map_cons, List.sum_cons]
        linarith
      · rcases List.mem_cons.mp hb with rfl | hb2
        · have hale : a.2.pct ≤ (xs.map (fun kv => kv.2.pct)).sum :=
            single_pct_le_sum xs a h0xs ha2
          simp only [List.map_cons, List.sum_cons]
          linarith
        · have hrec := ih a b h0xs ha2 hb2 hne
          simp only [List.map_cons, List.sum_cons]
          linarith

/-- A successful `tableFind?` returns a member of the table. -/
theorem tableFind?_mem {t : Table} {k : String} {e : Entry}
    (h : tableFind? t k = some e) : (k, e) ∈ t := by
  unfold tableFind? at h
  cases hf : List.find? (fun kv => kv.1 == k) t with
  | none => rw [hf] at h; exact Option.noConfusion h
  | some kv =>
      rw [hf] at h
      have hm := List.mem_of_find?_eq_some hf
      have hp := List.find?_some hf
      have hk : kv.1 = k := by simpa using hp
      have he : kv.2 = e := by simpa using h
      have hkv : kv = (k, e) := by
        obtain ⟨k1, e1⟩ := kv
        rw [show k1 = k from hk, show e1 = e from he]
      rw [← hkv]
      exact hm

/-- C6: whenever the `LTR/` prefix percentage sum and the known-LTR
percentage (the `LTR/Copia` + `LTR/Gypsy` block of `classify_one`) are both
numeric on the same parsed table, the known-LTR percentage is at most the
`LTR/` total percentage. -/
theorem C6_ltr_known_le_total (lines : List String) (s k : ℚ)
    (hs : ( sum_by_prefix (parse_teanno_sum_repeat_classes lines) "LTR/").1 = some s)
    (hk : (ltr_known_sum (parse_teanno_sum_repeat_classes lines)).1 = some k) :
    k ≤ s := by
  have h0 : ∀ kv ∈ parse_teanno_sum_repeat_classes lines, 0 ≤ kv.2.pct :=
    parseLines_pct_nonneg lines ⟨false, none, []⟩ (by intro kv hkv; simp at hkv)
  simp only [ sum_by_prefix] at hs
  split at hs
  · exact absurd hs (by simp)
  · have hsum : (((parse_teanno_sum_repeat_classes lines).filter
        (fun kv => startsWithStr "LTR/" kv.1)).map (fun kv => kv.2.pct)).sum = s :=
      Option.some.inj hs
    have h0m : ∀ kv ∈ (parse_teanno_sum_repeat_classes lines).filter
        (fun kv => startsWithStr "LTR/" kv.1), 0 ≤ kv.2.pct :=
      fun kv hkv => h0 kv (List.mem_filter.mp hkv).1
    simp only [ltr_known_sum, get_key] at hk
    cases hc : tableFind? (parse_teanno_sum_repeat_classes lines) "LTR/Copia" with
    | none =>
        cases hg : tableFind? (parse_teanno_sum_repeat_classes lines) "LTR/Gypsy" with
        | none =>
            rw [hc, hg] at hk
            simp at hk
        | some eg =>
            rw [hc, hg] at hk
            simp at hk
            have hmem : ("LTR/Gypsy", eg) ∈ (parse_teanno_sum_repeat_classes lines).filter
                (fun kv => startsWithStr "LTR/" kv.1) :=
              List.mem_filter.mpr ⟨tableFind?_mem hg, rfl⟩
            have hle := single_pct_le_sum _ ("LTR/Gypsy", eg) h0m hmem
            rw [hsum] at hle
            rw [← hk]
            linarith
    | some ec =>
        cases hg : tableFind? (parse_teanno_sum_repeat_classes lines) "LTR/Gypsy" with
        | none =>
            rw [hc, hg] at hk
            simp at hk
            have hmem : ("LTR/Copia", ec) ∈ (parse_teanno_sum_repeat_classes lines).filter
                (fun kv => startsWithStr "LTR/" kv.1) :=
              List.mem_filter.mpr ⟨tableFind?_mem hc, rfl⟩
            have hle := single_pct_le_sum _ ("LTR/Copia", ec) h0m hmem
            rw [hsum] at hle
            rw [← hk]
            linarith
        | some eg =>
            rw [hc, hg] at hk
            simp at hk
            have hmemc : ("LTR/Copia", ec) ∈ (parse_teanno_sum_repeat_classes lines).filter
                (fun kv => startsWithStr "LTR/" kv.1) :=
              List.mem_filter.mpr ⟨tableFind?_mem hc, rfl⟩
            have hmemg : ("LTR/Gypsy", eg) ∈ (parse_teanno_sum_repeat_classes lines).filter
                (fun kv => startsWithStr "LTR/" kv.1) :=
              List.mem_filter.mpr ⟨tableFind?_mem hg, rfl⟩
            have hle := pair_pct_le_sum _ ("LTR/Copia", ec) ("LTR/Gypsy", eg)
              h0m hmemc hmemg (by simp)
            rw [hsum] at hle
            rw [← hk]
            linarith


/-- C4 (counterexample): a top-level row whose class name itself contains
`/` (here `A/B`) is stored under a composite-looking key that does not arise
from any heading of the input, refuting the reading that every stored
`/`-key is a heading-qualified family key. -/
theorem C4_counterexample_slash_key :
    ¬ ((∀ kv ∈ parse_teanno_sum_repeat_classes
          ["Class  Count  bpMasked  %masked", "A/B  1  2  3"],
        '/' ∈ kv.1.data →
          ∃ c ∈ headingNames ["Class  Count  bpMasked  %masked", "A/B  1  2  3"],
            ∃ f, kv.1 = c ++ "/" ++ f) ∨
      (∀ kv ∈ parse_teanno_sum_repeat_classes
          ["Class  Count  bpMasked  %masked", "A/B  1  2  3"],
        '/' ∉ kv.1.data)) := by
  intro h
  have hmem : (("A/B", ⟨some 2, 3⟩) : String × Entry) ∈
      parse_teanno_sum_repeat_classes
        ["Class  Count  bpMasked  %masked", "A/B  1  2  3"] := by decide
  have hslash : '/' ∈ ("A/B" : String).data := by decide
  have hhn : headingNames ["Class  Count  bpMasked  %masked", "A/B  1  2  3"] = [] := by
    decide
  rcases h with h | h
  · rcases h _ hmem hslash with ⟨c, hc, -⟩
    rw [hhn] at hc
    simp at hc
  · exact absurd hslash (h _ hmem)

/-- C4 (amended): every stored key containing `/` is either
`heading ++ "/" ++ family` for a heading seen in the input, or the normalised
top-level class name of some input line (which may itself contain `/`). -/
theorem C4_composite_key_origin_amended (lines : List String) (kv : String × Entry)
    (hm : kv ∈ parse_teanno_sum_repeat_classes lines) (hs : '/' ∈ kv.1.data) :
    (∃ c ∈ headingNames lines, ∃ f, kv.1 = c ++ "/" ++ f) ∨
    (∃ l ∈ lines, kv.1 = topKeyOf l) := by
  rcases parse_key_origin lines ⟨false, none, []⟩ kv hm with
    h1 | h1 | h1 | ⟨c, f, hcf, hc⟩ | h1
  · simp at h1
  · exact absurd hs (by rw [h1]; decide)
  · exact absurd hs (by rw [h1]; decide)
  · rcases hc with hcc | hcc
    · exact absurd hcc (by simp)
    · exact Or.inl ⟨c, hcc, f, hcf⟩
  · exact Or.inr h1

/-- C4 witness: the key `LTR/Copia` stored under the `LTR` heading. -/
theorem C4_composite_key_origin_witness :
    (∃ c ∈ headingNames ["Class  Count  bpMasked  %masked", "LTR  --  --  --",
        "  Copia  10  1000  2%"], ∃ f, "LTR/Copia" = c ++ "/" ++ f) ∨
    (∃ l ∈ ["Class  Count  bpMasked  %masked", "LTR  --  --  --",
        "  Copia  10  1000  2%"], "LTR/Copia" = topKeyOf l) :=
  C4_composite_key_origin_amended _ ("LTR/Copia", ⟨some 1000, 2⟩) (by decide) (by decide)

/-- C5: when no input line is the `Class Count bpMasked %masked` header
row, parsing yields an empty table and `pick_total` reports
`(none, none, "MISSING", false)`. -/
theorem C5_no_header_missing_total (lines : List String) (h : ∀ l ∈ lines, isHeader l = false) :
    parse_teanno_sum_repeat_classes lines = [] ∧
    pick_total (parse_teanno_sum_repeat_classes lines) =
      (none, none, "MISSING", false) := by
  have hp : parse_teanno_sum_repeat_classes lines = [] :=
    parseLines_no_header lines none [] h
  refine ⟨hp, ?_⟩
  rw [hp]
  rfl

/-- C5 witness: a headerless input parses to the empty table. -/
theorem C5_no_header_missing_total_witness :
    parse_teanno_sum_repeat_classes ["no header here"] = [] ∧
    pick_total (parse_teanno_sum_repeat_classes ["no header here"]) =
      (none, none, "MISSING", false) :=
  C5_no_header_missing_total ["no header here"] (by decide)

/-- C10: every percentage the parser stores is non-negative, and so is
every numeric percentage `sum_by_prefix` reports, for any prefix. -/
theorem C10_pct_nonneg (lines : List String) :
    (∀ kv ∈ parse_teanno_sum_repeat_classes lines, 0 ≤ kv.2.pct) ∧
    (∀ (pre : String) (p : ℚ),
      ( sum_by_prefix (parse_teanno_sum_repeat_classes lines) pre).1 = some p →
      0 ≤ p) := by
  have hnn : ∀ kv ∈ parse_teanno_sum_repeat_classes lines, 0 ≤ kv.2.pct :=
    parseLines_pct_nonneg lines ⟨false, none, []⟩ (by intro kv hkv; simp at hkv)
  refine ⟨hnn, ?_⟩
  intro pre p hp
  simp only [ sum_by_prefix] at hp
  split at hp
  · exact absurd hp (by simp)
  · have hsum := Option.some.inj hp
    rw [← hsum]
    apply List.sum_nonneg
    intro x hx
    rcases List.mem_map.mp hx with ⟨kv, hkv, rfl⟩
    exact hnn kv (List.mem_filter.mp hkv).1

/-- C10 witness: a concrete table with a stored and a summed percentage. -/
theorem C10_pct_nonneg_witness :
    0 ≤ ((⟨some 1000, 2⟩ : Entry)).pct ∧ 0 ≤ (2 : ℚ) + 0 := by
  constructor
  · exact (C10_pct_nonneg ["Class  Count  bpMasked  %masked", "LTR  --  --  --",
      "  Copia  10  1000  2%"]).1 ("LTR/Copia", ⟨some 1000, 2⟩) (by decide)
  · exact (C10_pct_nonneg ["Class  Count  bpMasked  %masked", "LTR  --  --  --",
      "  Copia  10  1000  2%"]).2 "LTR/" ((2 : ℚ) + 0) rfl

/-- C9 (counterexample): with a readable but unparseable `TEanno.sum`
(the reader yields an error string), the record's missing list contains
`TEanno.sum(parse_error)`, which is not among the four labels the spec
lists. -/
theorem C9_counterexample_parse_error_label :
    ¬ (∀ (fs : FS) (paths : SamplePaths) (profile : String)
        (plant_thr : PlantThresholds) (animal_thr : AnimalThresholds)
        (fungi_thr : FungiThresholds) (cfg : TechConfig),
        ∀ m ∈ (classify_one fs paths profile plant_thr animal_thr fungi_thr cfg).missing,
          m ∈ ["TEanno.sum", "TEanno.gff3", "TElib.fa", "EDTA.anno/"]) := by
  intro h
  have hm : "TEanno.sum(parse_error)" ∈
      (classify_one ⟨fun _ => true, fun _ => true, fun _ => [], fun _ => some "boom"⟩
        ⟨"d", "s", "g", "t", "a"⟩ "plant" defaultPlantThresholds
        defaultAnimalThresholds defaultFungiThresholds defaultTechConfig).missing := by
    decide
  have h2 := h ⟨fun _ => true, fun _ => true, fun _ => [], fun _ => some "boom"⟩
    ⟨"d", "s", "g", "t", "a"⟩ "plant" defaultPlantThresholds
    defaultAnimalThresholds defaultFungiThresholds defaultTechConfig
    "TEanno.sum(parse_error)" hm
  exact absurd h2 (by decide)

/-- C9 witness: a tech-fail record's tag is `;`-free and its label is in the vocabulary. -/
theorem C9_record_vocab_witness :
    (';' ∉ ("TECH_MISSING_TEanno.sum" : String).data) ∧
    "TEanno.sum" ∈ ["TEanno.sum", "TEanno.gff3", "TElib.fa", "EDTA.anno/",
      "TEanno.sum(parse_error)"] := by
  constructor
  · exact (C9_record_vocab_amended ⟨fun _ => false, fun _ => false, fun _ => [], fun _ => none⟩
      ⟨"", "", "", "", ""⟩ "plant" defaultPlantThresholds defaultAnimalThresholds
      defaultFungiThresholds defaultTechConfig).1 "TECH_MISSING_TEanno.sum" (by decide)
  · exact (C9_record_vocab_amended ⟨fun _ => false, fun _ => false, fun _ => [], fun _ => none⟩
      ⟨"", "", "", "", ""⟩ "plant" defaultPlantThresholds defaultAnimalThresholds
      defaultFungiThresholds defaultTechConfig).2 "TEanno.sum" (by decide)

/-- C1 witness: with an empty filesystem every check fails, the record is
the tech-fail record and `TElib.fa` is reported missing. -/
theorem C1_tech_fail_short_circuit_witness :
    (classify_one ⟨fun _ => false, fun _ => false, fun _ => [], fun _ => none⟩
      ⟨"", "", "", "", ""⟩ "animal" defaultPlantThresholds defaultAnimalThresholds
      defaultFungiThresholds defaultTechConfig).overall_status = "FAIL" ∧
    "TElib.fa" ∈ (classify_one ⟨fun _ => false, fun _ => false, fun _ => [], fun _ => none⟩
      ⟨"", "", "", "", ""⟩ "animal" defaultPlantThresholds defaultAnimalThresholds
      defaultFungiThresholds defaultTechConfig).missing := by
  obtain ⟨h1, h2, h3, h4, h5, h6, h7, h8, h9, h10, h11, h12, h13, h14, h15, h16, h17,
    h18, h19, h20, h21, h22, h23, h24, h25⟩ :=
    C1_tech_fail_short_circuit
      ⟨fun _ => false, fun _ => false, fun _ => [], fun _ => none⟩
      ⟨"", "", "", "", ""⟩ "animal" defaultPlantThresholds defaultAnimalThresholds
      defaultFungiThresholds defaultTechConfig
      ["TEanno.sum", "TEanno.gff3", "TElib.fa", "EDTA.anno/"]
      (by decide) (by decide)
  exact ⟨h1, h25 rfl (Or.inl rfl)⟩


/-- C6 witness: a one-family table where both sums evaluate and agree. -/
theorem C6_ltr_known_le_total_witness :
    ( sum_by_prefix (parse_teanno_sum_repeat_classes
        ["Class  Count  bpMasked  %masked", "LTR  --  --  --",
         "  Copia  7  100  7%"]) "LTR/").1 = some ((7 : ℚ) + 0) ∧
    (ltr_known_sum (parse_teanno_sum_repeat_classes
        ["Class  Count  bpMasked  %masked", "LTR  --  --  --",
         "  Copia  7  100  7%"])).1 = some ((7 : ℚ) + 0) ∧
    (7 : ℚ) + 0 ≤ (7 : ℚ) + 0 :=
  ⟨rfl, rfl, C6_ltr_known_le_total
    ["Class  Count  bpMasked  %masked", "LTR  --  --  --", "  Copia  7  100  7%"]
    ((7 : ℚ) + 0) ((7 : ℚ) + 0) rfl rfl⟩

end EDTA
